import Mathlib

/-!
Verification of the odkrunner configuration-assembly and backend-dispatch
engine, as a shallow embedding of the C sources (src/runner.c, src/runconf.c,
src/odkrun.c, src/backend-docker.c, src/backend-singularity.c,
src/backend-native.c, src/procutil.c) into Lean.

Modelling conventions:
* C strings are Lean `String`s; a `NULL` string pointer is `Option.none`.
* The compiled-in default image name / tag are compared by pointer identity
  in the C code (`cfg->image_name == DEFAULT_IMAGE_NAME`); a pointer that may
  be the default constant is modelled by `CStr`, carrying an
  `isDefaultConst` bit alongside the text.
* Machine integers: sizes and counts are `Nat`; C functions returning `int`
  status codes return `Int`.
* Filesystem and OS facts (realpath, HOME, the OWLAPI option table that is
  generated into the missing header owlapi-options.h) are abstracted into an
  `Env` record passed explicitly.
* IEEE-754 double arithmetic in set_max_java_mem is modelled exactly by
  dyadic rationals with round-to-nearest-even to 53 significant bits
  (`Dy`, `round53`, `round_rat`); exponents are unbounded, which is faithful
  for all values reachable here (magnitudes far from overflow/subnormal).
-/

/-- Models a `const char *` that may or may not be one of the compiled-in
default constants (`DEFAULT_IMAGE_NAME` / `DEFAULT_IMAGE_TAG`), whose
identity the C code tests by pointer comparison. -/
structure CStr where
  isDefaultConst : Bool
  val : String
deriving DecidableEq, Repr

/--.name/.value pair (struct odk_var); value NULL means "explicitly unset". -/
structure Var where
  name : String
  value : Option String
deriving DecidableEq, Repr

/-- Host/container directory pair (struct odk_bind_config). -/
structure Binding where
  host_directory : String
  container_directory : String
deriving DecidableEq, Repr

/-- Backend-independent ODK configuration (struct odk_run_config). -/
structure Config where
  image_name : CStr
  image_tag : CStr
  work_directory : String
  bindings : List Binding
  env_vars : List Var
  java_opts : List Var
  oak_cache_directory : Option String
  flags : Nat
deriving DecidableEq, Repr

def ODK_FLAG_TIMEDEBUG : Nat := 0x0001

def ODK_FLAG_RUNASROOT : Nat := 0x0002

def ODK_FLAG_SEEDMODE : Nat := 0x0004

def ODK_FLAG_JAVAMEMSET : Nat := 0x2000

def ODK_FLAG_INODKREPO : Nat := 0x4000

def ODK_NO_OVERWRITE : Nat := 0x0001

/-- odk_init_config: all defaults; both image fields point at the
compiled-in default constants. -/
def odk_init_config : Config :=
  { image_name := ⟨true, "obolibrary/odkfull"⟩
    image_tag := ⟨true, "latest"⟩
    work_directory := "/work"
    bindings := []
    env_vars := []
    java_opts := []
    oak_cache_directory := none
    flags := 0 }

/-- odk_set_image_name: set the image unless ODK_NO_OVERWRITE is given and
the current value is not the default constant (pointer comparison). -/
def odk_set_image_name (cfg : Config) (img : CStr) (fgs : Nat) : Config :=
  if cfg.image_name.isDefaultConst = true ∨ fgs &&& ODK_NO_OVERWRITE = 0 then
    { cfg with image_name := img }
  else cfg

/-- odk_set_image_tag, same policy as odk_set_image_name. -/
def odk_set_image_tag (cfg : Config) (tag : CStr) (fgs : Nat) : Config :=
  if cfg.image_tag.isDefaultConst = true ∨ fgs &&& ODK_NO_OVERWRITE = 0 then
    { cfg with image_tag := tag }
  else cfg

/-- odk_set_oak_cache_directory; the compiled-in default is NULL, so the
"is default" pointer test is an isNone test. -/
def odk_set_oak_cache_directory (cfg : Config) (dir : String) (fgs : Nat) : Config :=
  if cfg.oak_cache_directory = none ∨ fgs &&& ODK_NO_OVERWRITE = 0 then
    { cfg with oak_cache_directory := some dir }
  else cfg

/-- add_var (runner.c): linear scan for the name; on a hit, update the value
unless ODK_NO_OVERWRITE; otherwise append at the end.  The bump-by-10
capacity management of the C array is irrelevant to the list semantics. -/
def add_var (vars : List Var) (name : String) (value : Option String) (flags : Nat) : List Var :=
  match vars with
  | [] => [⟨name, value⟩]
  | v :: rest =>
    if v.name = name then
      (if flags &&& ODK_NO_OVERWRITE = 0 then ⟨v.name, value⟩ :: rest else v :: rest)
    else
      v :: add_var rest name value flags

/-- odk_add_env_var. -/
def odk_add_env_var (cfg : Config) (name : String) (value : Option String) (flags : Nat) : Config :=
  { cfg with env_vars := add_var cfg.env_vars name value flags }

/-- odk_add_java_opt: records the option (as a valueless var) and raises
ODK_FLAG_JAVAMEMSET when the option string starts with "-Xmx"
(strncmp(option, "-Xmx", 4) == 0, i.e. the first four characters are
['-', 'X', 'm', 'x']). -/
def odk_add_java_opt (cfg : Config) (option : String) (flags : Nat) : Config :=
  { cfg with
    flags := if option.toList.take 4 = ['-', 'X', 'm', 'x'] then
        cfg.flags ||| ODK_FLAG_JAVAMEMSET
      else cfg.flags
    java_opts := add_var cfg.java_opts option none flags }

/-- odk_add_java_property: a valued entry in the same java_opts list; does
not touch the flag bitset. -/
def odk_add_java_property (cfg : Config) (name : String) (value : String) (flags : Nat) : Config :=
  { cfg with java_opts := add_var cfg.java_opts name (some value) flags }

/-- Outcome of realpath(3) on a host path: a canonical path, ENOENT, or any
other (hard) error. -/
inductive CanonResult where
  | ok (path : String)
  | enoent
  | hardError
deriving DecidableEq, Repr

/-- Host-environment facts consumed by the configuration loader: path
canonicalization, the HOME variable, and the OWLAPI option table (the
generated header owlapi-options.h is not part of the sources; the lookup
get_owlapi_java_property_from_name is abstracted as a function returning
either the Java property name or an error message). -/
structure Env where
  canon : String → CanonResult
  home : Option String
  owlapi : String → String → Except String String

/-- bind_update: the find-or-append scan of odk_add_binding, after the host
path has been canonicalized. -/
def bind_update (bs : List Binding) (path dst : String) (fgs : Nat) : List Binding :=
  match bs with
  | [] => [⟨path, dst⟩]
  | b :: rest =>
    if b.host_directory = path then
      (if fgs &&& ODK_NO_OVERWRITE = 0 then ⟨b.host_directory, dst⟩ :: rest else b :: rest)
    else
      b :: bind_update rest path dst fgs

/-- odk_add_binding: canonicalize src with realpath; ENOENT falls back to
the literal path, any other realpath failure returns -1 (here: none). -/
def odk_add_binding (env : Env) (cfg : Config) (src dst : String) (fgs : Nat) : Option Config :=
  match env.canon src with
  | CanonResult.hardError => none
  | CanonResult.ok p => some { cfg with bindings := bind_update cfg.bindings p dst fgs }
  | CanonResult.enoent => some { cfg with bindings := bind_update cfg.bindings src dst fgs }

/-- Serialization loop of odk_make_java_args: separator before every entry
except the first, "-Dname=value" for valued entries, the bare name
otherwise. -/
def java_args_go (i : Nat) (opts : List Var) (acc : String) : String :=
  match opts with
  | [] => acc
  | v :: rest =>
    let acc := if i > 0 then acc ++ " " else acc
    let acc := match v.value with
      | some x => acc ++ "-D" ++ v.name ++ "=" ++ x
      | none => acc ++ v.name
    java_args_go (i + 1) rest acc

/-- odk_make_java_args: returns the compiled argument string and, when
to_env is set, also stores it under ODK_JAVA_OPTS and ROBOT_JAVA_ARGS. -/
def odk_make_java_args (cfg : Config) (to_env : Bool) : String × Config :=
  let buffer := java_args_go 0 cfg.java_opts ""
  if to_env then
    (buffer, odk_add_env_var (odk_add_env_var cfg "ODK_JAVA_OPTS" (some buffer) 0)
      "ROBOT_JAVA_ARGS" (some buffer) 0)
  else
    (buffer, cfg)

/-- strchr: split a character list at the first occurrence of c; the match
itself is consumed (the C code overwrites it with a NUL terminator). -/
def split_first : List Char → Char → Option (List Char × List Char)
  | [], _ => none
  | x :: xs, c =>
    if x = c then some ([], xs)
    else (split_first xs c).map (fun p => (x :: p.1, p.2))

/-- Single-quote character (written by code point to keep the embedding
plain ASCII-friendly). -/
def squote : Char := Char.ofNat 39

/-- Double-quote character. -/
def dquote : Char := Char.ofNat 34

/-- process_bind_spec (runconf.c): parse one "host:container[:options]"
token from an ODK_BINDS value.  Returns the -1/0 status together with the
possibly-updated configuration.  The Windows drive-letter special case is
not modelled (the embedding follows the POSIX compilation). -/
def process_bind_spec (env : Env) (spec : String) (cfg : Config) : Int × Config :=
  match split_first spec.toList ':' with
  | none => (-1, cfg)
  | some (pre, post) =>
    -- `! dst || *(dst+1) == '\0' || *(dst+1) == ':'`
    if post = [] ∨ post.head? = some ':' then (-1, cfg)
    else
      -- an optional third ':'-separated segment is dropped with a warning
      let dst := match split_first post ':' with
        | some (d, _) => d
        | none => post
      -- '~' expansion against $HOME
      let src? : Option String :=
        if pre.head? = some '~' then
          match env.home with
          | some home => some (home ++ (pre.drop 1).asString)
          | none => none
        else some pre.asString
      match src? with
      | none => (-1, cfg)
      | some src =>
        match odk_add_binding env cfg src dst.asString 0 with
        | some cfg => (0, cfg)
        | none => (-1, cfg)

/-- process_line (runconf.c): parse one line of run.sh.conf, accumulating
-1 per configuration error (several for a multi-token ODK_BINDS value).
Warnings, line numbers and the stderr text are not modelled.  Note: the C
code keeps value_len as size_t, so after stripping a lone quote character
it wraps to SIZE_MAX; since only the comparison `value_len == 0` is ever
made and the pre-strip length is nonnegative, an Int modelling is
extensionally identical. -/
def process_line (env : Env) (line : String) (cfg : Config) : Int × Config :=
  let cs := line.toList
  if cs.length > 0 ∧ cs.head? ≠ some '#' then
    match split_first cs '=' with
    | none => (-1, cfg)                    -- "Ignoring value-less option"
    | some (key, val0) =>
      -- strip one layer of matching quotes around the value
      let strip : Bool :=
        match val0.head? with
        | some h => (h = squote ∨ h = dquote) ∧ val0.getLast? = some h
        | none => false
      let value : List Char := if strip then (val0.dropLast).drop 1 else val0
      let value_len : Int := if strip then (val0.length : Int) - 2 else (val0.length : Int)
      let k := key.asString
      let v := value.asString
      if value_len = 0 then (-1, cfg)      -- "Ignoring empty value"
      else if k = "ODK_IMAGE" then
        (0, { cfg with image_name := ⟨false, v⟩ })
      else if k = "ODK_TAG" then
        (0, { cfg with image_tag := ⟨false, v⟩ })
      else if k = "ODK_DEBUG" ∧ v = "yes" then
        (0, odk_add_env_var { cfg with flags := cfg.flags ||| ODK_FLAG_TIMEDEBUG }
          "ODK_DEBUG" (some "yes") 0)
      else if k = "ODK_JAVA_OPTS" then
        -- strtok(value, " "): empty tokens are skipped
        (0, ((v.split (fun c => c = ' ')).filter (fun t => t ≠ "")).foldl
          (fun c t => odk_add_java_opt c t 0) cfg)
      else if k = "ODK_BINDS" then
        -- strtok(value, ","): each bad spec contributes -1 to the line status
        ((v.split (fun c => c = ',')).filter (fun t => t ≠ "")).foldl
          (fun (p : Int × Config) t =>
            let q := process_bind_spec env t p.2
            (p.1 + q.1, q.2))
          (0, cfg)
      else if k.startsWith "OWLAPI_" then
        match env.owlapi (k.drop 7) v with
        | Except.ok prop => (0, odk_add_java_property cfg prop v 0)
        | Except.error _ => (-1, cfg)
      else if k = "ODK_USER_ID" then
        if value = ['0'] then (0, { cfg with flags := cfg.flags ||| ODK_FLAG_RUNASROOT })
        else (-1, cfg)
      else (-1, cfg)                       -- "Ignoring unsupported option"
  else (0, cfg)

/-- Availability and content of the run.sh.conf file: absent, present but
unopenable, or a sequence of lines (already split, without their newline
terminators) possibly followed by a getline failure. -/
inductive FileInput where
  | noFile
  | unreadable
  | content (lines : List String) (ioFail : Bool)

/-- load_run_conf (runconf.c): 0 when no file exists, -1 when it cannot be
opened or a read fails, otherwise the accumulated count of configuration
errors (ret += -process_line(...)).  The loop guard `ret != -1` only
matters after an I/O failure, which here terminates processing anyway. -/
def load_run_conf (env : Env) (f : FileInput) (cfg : Config) : Int × Config :=
  match f with
  | FileInput.noFile => (0, cfg)
  | FileInput.unreadable => (-1, cfg)
  | FileInput.content lines ioFail =>
    let r := lines.foldl
      (fun (p : Int × Config) ln =>
        let q := process_line env ln p.2
        (p.1 - q.1, q.2))
      (0, cfg)
    (if ioFail then -1 else r.1, r.2)

/-- The three-token /usr/bin/time prefix shared by all backends when
ODK_FLAG_TIMEDEBUG is set. -/
def time_tokens : List String :=
  ["/usr/bin/time", "-f", "### DEBUG STATS ###\nElapsed time: %E\nPeak memory: %M kb"]

/-- backend-docker.c run(): the argument vector, in the exact order the C
code writes its slots; the terminating NULL slot is modelled by the end of
the list. -/
def docker_run_argv (cfg : Config) (command : List String) : List String :=
  ["docker", "run", "--rm", "-ti", "-w", cfg.work_directory]
  ++ cfg.bindings.foldr
      (fun b acc => "-v" :: (b.host_directory ++ ":" ++ b.container_directory) :: acc) []
  ++ cfg.env_vars.foldr
      (fun v acc => match v.value with
        | some x => "-e" :: (v.name ++ "=" ++ x) :: acc
        | none => acc) []
  ++ [cfg.image_name.val ++ ":" ++ cfg.image_tag.val]
  ++ (if cfg.flags &&& ODK_FLAG_TIMEDEBUG ≠ 0 then time_tokens else [])
  ++ command

/-- backend-docker.c run(): the token count n computed before allocating
the vector (9 fixed slots + 2 per binding + 2 per env var + 3 in debug mode
+ the user command length). -/
def docker_argv_alloc (cfg : Config) (command : List String) : Nat :=
  9 + cfg.bindings.length * 2 + cfg.env_vars.length * 2
  + (if cfg.flags &&& ODK_FLAG_TIMEDEBUG ≠ 0 then 3 else 0)
  + command.length

/-- Number of argv slots the docker run() actually writes, the NULL
terminator included. -/
def docker_argv_written (cfg : Config) (command : List String) : Nat :=
  (docker_run_argv cfg command).length + 1

/-- backend-singularity.c run(), --env value construction: the loop index j
governs the separator (a ',' is emitted before every valued entry with
j > 0), while entries without a value are skipped entirely. -/
def sing_env_go (j : Nat) (vars : List Var) (acc : String) : String :=
  match vars with
  | [] => acc
  | v :: rest =>
    match v.value with
    | none => sing_env_go (j + 1) rest acc
    | some x =>
      sing_env_go (j + 1) rest ((if j > 0 then acc ++ "," else acc) ++ v.name ++ "=" ++ x)

/-- The combined --env argument of the singularity backend. -/
def sing_env_arg (vars : List Var) : String :=
  sing_env_go 0 vars ""

/-- backend-singularity.c run(), --bind value construction: every binding
is rendered, with a ',' before every entry with index j > 0. -/
def sing_bind_go (j : Nat) (bs : List Binding) (acc : String) : String :=
  match bs with
  | [] => acc
  | b :: rest =>
    sing_bind_go (j + 1) rest
      ((if j > 0 then acc ++ "," else acc) ++ b.host_directory ++ ":" ++ b.container_directory)

/-- The combined --bind argument of the singularity backend. -/
def sing_bind_arg (bs : List Binding) : String :=
  sing_bind_go 0 bs ""

/-- backend-singularity.c run(): the argument vector in write order; the
NULL terminator is the end of the list. -/
def singularity_run_argv (cfg : Config) (command : List String) : List String :=
  -- strchr(cfg->image_name, '/') ? "" : "obolibrary/"
  let image_qualifier := if cfg.image_name.val.toList.contains '/' then "" else "obolibrary/"
  ["singularity", "exec", "--cleanenv"]
  ++ (if cfg.env_vars.length > 0 then ["--env", sing_env_arg cfg.env_vars] else [])
  ++ (if cfg.bindings.length > 0 then ["--bind", sing_bind_arg cfg.bindings] else [])
  ++ ["-W", cfg.work_directory,
      "docker://" ++ image_qualifier ++ cfg.image_name.val ++ ":" ++ cfg.image_tag.val]
  ++ (if cfg.flags &&& ODK_FLAG_TIMEDEBUG ≠ 0 then time_tokens else [])
  ++ (if cfg.flags &&& ODK_FLAG_SEEDMODE ≠ 0 then ["/tools/odk.py", "seed"] else [])
  ++ command

/-- backend-singularity.c run(): the precomputed token count n. -/
def singularity_argv_alloc (cfg : Config) (command : List String) : Nat :=
  7 + (if cfg.bindings.length > 0 then 2 else 0)
  + (if cfg.env_vars.length > 0 then 2 else 0)
  + (if cfg.flags &&& ODK_FLAG_TIMEDEBUG ≠ 0 then 3 else 0)
  + (if cfg.flags &&& ODK_FLAG_SEEDMODE ≠ 0 then 2 else 0)
  + command.length

/-- Number of argv slots the singularity run() writes, NULL included. -/
def singularity_argv_written (cfg : Config) (command : List String) : Nat :=
  (singularity_run_argv cfg command).length + 1

/-- backend-native.c run(), rewritten-command branch (taken when debug or
seed mode is active): the vector that is written into the allocation.
git_user and git_email are the fields the same file reads from the
configuration record of its own revision; they are passed explicitly
here. -/
def native_argv (dbg seed : Bool) (git_user git_email : String) (command : List String) :
    List String :=
  (if dbg then time_tokens else [])
  ++ (if seed then ["odk.py", "seed", "--gitname", git_user, "--gitemail", git_email] else [])
  ++ command

/-- backend-native.c run(): the element count n used for xmalloc — note it
has no slot for the NULL terminator. -/
def native_argv_alloc (dbg seed : Bool) (command : List String) : Nat :=
  (if dbg then 3 else 0) + (if seed then 6 else 0) + command.length

/-- Number of argv slots the native run() writes: every token plus the
final `argv[i] = NULL`. -/
def native_argv_written (dbg seed : Bool) (git_user git_email : String)
    (command : List String) : Nat :=
  (native_argv dbg seed git_user git_email command).length + 1

/-- Modelled from the spec: "comma-joined concatenation", a join with a
single ',' between consecutive items and no leading or trailing
separator. -/
def comma_join : List String → String
  | [] => ""
  | [x] => x
  | x :: y :: rest => x ++ "," ++ comma_join (y :: rest)

/-- Rendering of a valued environment entry as NAME=VALUE (entries without
a value render as nothing). -/
def render_env_var (v : Var) : Option String :=
  v.value.map (fun x => v.name ++ "=" ++ x)

/-- Rendering of a binding as host:container. -/
def render_binding (b : Binding) : String :=
  b.host_directory ++ ":" ++ b.container_directory

/-- Exit status of a child process as observed by waitpid. -/
inductive WaitStatus where
  | exited (code : Nat)
  | signaled (sig : Nat)
deriving DecidableEq, Repr

/-- The possible executions of spawn_process (procutil.c, POSIX branch):
fork fails; fork succeeds but execvp fails in the child; waitpid fails; or
the child runs and terminates with some wait status. -/
inductive SpawnScenario where
  | forkFailed
  | waitFailed
  | execFailed
  | childTerminated (st : WaitStatus)
deriving DecidableEq, Repr

/-- EXIT_FAILURE, the status the child exits with when execvp fails. -/
def EXIT_FAILURE : Nat := 1

/-- The wait status the parent observes in each scenario where waitpid
succeeds: an exec failure makes the child exit(EXIT_FAILURE), which the
parent sees as a normal exit. -/
def observed_status : SpawnScenario → Option WaitStatus
  | SpawnScenario.forkFailed => none
  | SpawnScenario.waitFailed => none
  | SpawnScenario.execFailed => some (WaitStatus.exited EXIT_FAILURE)
  | SpawnScenario.childTerminated st => some st

/-- spawn_process (procutil.c): WEXITSTATUS on a normal exit, -1 in every
other case (fork failure, waitpid failure, or WIFEXITED false). -/
def spawn_process (s : SpawnScenario) : Int :=
  match observed_status s with
  | some (WaitStatus.exited code) => (code : Int)
  | some (WaitStatus.signaled _) => -1
  | none => -1

/-- A nonnegative dyadic rational m * 2^e: the exact value of an IEEE-754
double in the range used by set_max_java_mem (exponents here stay far away
from the overflow and subnormal thresholds of binary64). -/
structure Dy where
  m : Nat
  e : Int
deriving DecidableEq, Repr

/-- Number of halvings needed to bring m below 2^53 (fuel-based structural
recursion; the fuel of 60 used below covers every mantissa < 2^113). -/
def kgo : Nat → Nat → Nat
  | 0, _ => 0
  | f + 1, m => if m < 2 ^ 53 then 0 else kgo f (m / 2) + 1

/-- The least k with m < 2^(53+k), for any m < 2^113. -/
def kfor (m : Nat) : Nat := kgo 60 m

/-- Round-to-nearest-even of m / 2^k, on naturals. -/
def rheN (m k : Nat) : Nat :=
  if k = 0 then m
  else
    let p := 2 ^ k
    let q := m / p
    let r := m % p
    if 2 * r < p then q
    else if p < 2 * r then q + 1
    else if q % 2 = 0 then q else q + 1

/-- Round-to-nearest-even of a / b, on naturals. -/
def rhe_frac (a b : Nat) : Nat :=
  let q := a / b
  let r := a % b
  if 2 * r < b then q
  else if b < 2 * r then q + 1
  else if q % 2 = 0 then q else q + 1

/-- IEEE binary64 rounding of a dyadic value: reduce the mantissa to at
most 53 bits with round-to-nearest-even. -/
def round53 (d : Dy) : Dy :=
  let k := kfor d.m
  ⟨rheN d.m k, d.e + k⟩

/-- Exact product of two dyadics (a double multiplication is this followed
by round53). -/
def dy_mul (a b : Dy) : Dy := ⟨a.m * b.m, a.e + b.e⟩

/-- Greatest j with den * 2^j ≤ num (num ≥ den ≥ 1), fuel-based. -/
def elog_up : Nat → Nat → Nat → Nat
  | 0, _, _ => 0
  | f + 1, num, den => if den * 2 ≤ num then elog_up f num (den * 2) + 1 else 0

/-- Least j ≥ 1 with num * 2^j ≥ den (num < den), fuel-based. -/
def elog_down : Nat → Nat → Nat → Nat
  | 0, _, _ => 1
  | f + 1, num, den => if den ≤ num * 2 then 1 else elog_down f (num * 2) den + 1

/-- IEEE round-to-nearest-even of the rational num / den to a binary64
value: find the exponent E with 2^E ≤ num/den < 2^(E+1), then round the
scaled mantissa num * 2^(52-E) / den to an integer, ties to even. -/
def round_rat (num den : Nat) : Dy :=
  if num = 0 ∨ den = 0 then ⟨0, 0⟩
  else
    let E : Int := if den ≤ num then (elog_up num num den : Int) else -(elog_down den num den : Int)
    if E ≤ 52 then ⟨rhe_frac (num * 2 ^ (52 - E).toNat) den, E - 52⟩
    else ⟨rhe_frac num (den * 2 ^ (E - 52).toNat), E - 52⟩

/-- Correctly rounded division of a double by an integer constant
(`amount / 100.0`). -/
def dy_div_nat (d : Dy) (n : Nat) : Dy :=
  if 0 ≤ d.e then round_rat (d.m * 2 ^ d.e.toNat) n
  else round_rat d.m (n * 2 ^ (-d.e).toNat)

/-- Exact division by 2^k (a double divided by the power of two
1024*1024*1024 is exact: only the exponent changes). -/
def dy_shift (d : Dy) (k : Int) : Dy := ⟨d.m, d.e + k⟩

/-- Truncation of a nonnegative double to an unsigned integer (the
assignment of the double expression to the size_t amount). -/
def dy_floor (d : Dy) : Nat :=
  if 0 ≤ d.e then d.m * 2 ^ d.e.toNat else d.m / 2 ^ (-d.e).toNat

/-- The C expression `(size_t)((total_memory * 0.9) / (1024*1024*1024))`:
total_memory converted to double, multiplied by the double literal 0.9,
divided (exactly) by 2^30, truncated. -/
def java_mem_default (tm : Nat) : Nat :=
  dy_floor (dy_shift (round53 (dy_mul (round53 ⟨tm, 0⟩) (round_rat 9 10))) (-30))

/-- The C expression
`(size_t)((total_memory * (amount / 100.0)) / (1024*1024*1024))`. -/
def java_mem_percent (tm amount : Nat) : Nat :=
  dy_floor (dy_shift
    (round53 (dy_mul (round53 ⟨tm, 0⟩) (dy_div_nat (round53 ⟨amount, 0⟩) 100))) (-30))

/-- sscanf(requested, "%zu%c", &amount, &unit): a nonempty run of decimal
digits followed by at least one more character; otherwise fewer than two
conversions succeed.  (Leading whitespace/sign subtleties of scanf are not
exercised by any claim.) -/
def sscanf_zu_c (s : String) : Option (Nat × Char) :=
  let cs := s.toList
  let ds := cs.takeWhile (fun c => c.isDigit)
  if ds = [] then none
  else
    match cs.drop ds.length with
    | [] => none
    | c :: _ => some (ds.foldl (fun n c => n * 10 + (c.toNat - 48)) 0, c)

/-- The final `if (amount > 0) odk_add_java_opt(cfg, "-Xmx%lu%c", ...)` of
set_max_java_mem. -/
def add_mem_opt (cfg : Config) (amount : Nat) (u : Char) : Config :=
  if 0 < amount then odk_add_java_opt cfg ("-Xmx" ++ toString amount ++ u.toString) 0 else cfg

/-- set_max_java_mem (odkrun.c): errx terminations are modelled as
Except.error with the errx message. -/
def set_max_java_mem (cfg : Config) (total_memory : Nat) (requested : Option String) :
    Except String Config :=
  match requested with
  | some req =>
    match sscanf_zu_c req with
    | none => Except.error ("Invalid value for --java-mem option: " ++ req)
    | some (a, u) =>
      if u = '%' then
        if total_memory = 0 then
          Except.error "Could not get memory information from backend"
        else
          Except.ok (add_mem_opt cfg (java_mem_percent total_memory a) 'G')
      else if u = 'm' ∨ u = 'M' ∨ u = 'g' ∨ u = 'G' then
        Except.ok (add_mem_opt cfg a u)
      else
        Except.error ("Invalid value for --java-mem option: " ++ req)
  | none =>
    if cfg.flags &&& ODK_FLAG_JAVAMEMSET = 0 ∧ 0 < total_memory then
      Except.ok (add_mem_opt cfg (java_mem_default total_memory) 'G')
    else
      Except.ok cfg

/-- The four flag constants that odkrun.c and runconf.c OR directly into
cfg->flags (ODK_FLAG_JAVAMEMSET is never one of them: it is raised only
inside odk_add_java_opt). -/
inductive FlagConst where
  | timedebug
  | runasroot
  | seedmode
  | inodkrepo
deriving DecidableEq, Repr

def flag_const_val : FlagConst → Nat
  | FlagConst.timedebug => ODK_FLAG_TIMEDEBUG
  | FlagConst.runasroot => ODK_FLAG_RUNASROOT
  | FlagConst.seedmode => ODK_FLAG_SEEDMODE
  | FlagConst.inodkrepo => ODK_FLAG_INODKREPO

/-- The configuration-mutating operations available to the merge phase:
every odk_* mutator from runner.c plus the direct `cfg.flags |= ...`
statements of odkrun.c / runconf.c. -/
inductive Op where
  | setImageName (img : CStr) (fgs : Nat)
  | setImageTag (tag : CStr) (fgs : Nat)
  | setOakCache (dir : String) (fgs : Nat)
  | addBinding (src dst : String) (fgs : Nat)
  | addEnvVar (name : String) (value : Option String) (fgs : Nat)
  | addJavaOpt (option : String) (fgs : Nat)
  | addJavaProperty (name value : String) (fgs : Nat)
  | orFlag (c : FlagConst)
  | makeJavaArgs (to_env : Bool)

/-- Effect of one configuration operation (a failed odk_add_binding leaves
the configuration unchanged). -/
def apply_op (env : Env) (op : Op) (cfg : Config) : Config :=
  match op with
  | Op.setImageName img fgs => odk_set_image_name cfg img fgs
  | Op.setImageTag tag fgs => odk_set_image_tag cfg tag fgs
  | Op.setOakCache dir fgs => odk_set_oak_cache_directory cfg dir fgs
  | Op.addBinding src dst fgs => (odk_add_binding env cfg src dst fgs).getD cfg
  | Op.addEnvVar name value fgs => odk_add_env_var cfg name value fgs
  | Op.addJavaOpt option fgs => odk_add_java_opt cfg option fgs
  | Op.addJavaProperty name value fgs => odk_add_java_property cfg name value fgs
  | Op.orFlag c => { cfg with flags := cfg.flags ||| flag_const_val c }
  | Op.makeJavaArgs to_env => (odk_make_java_args cfg to_env).2

/-- Whether an operation is an odk_add_java_opt call whose option string
starts with "-Xmx". -/
def is_xmx_opt : Op → Bool
  | Op.addJavaOpt option _ => option.toList.take 4 == ['-', 'X', 'm', 'x']
  | _ => false

/-- A whole sequence of configuration operations. -/
def apply_ops (env : Env) (ops : List Op) (cfg : Config) : Config :=
  ops.foldl (fun c op => apply_op env op c) cfg

/-- A host environment for concrete test inputs: no path exists, HOME is
unset, the OWLAPI table recognizes nothing. -/
def env_trivial : Env :=
  ⟨fun _ => CanonResult.enoent, none, fun _ _ => Except.error "unknown option"⟩

/-- Concatenation of ("," ++ item) over a list, the shape produced by the
singularity join loops for every entry after the first. -/
def tail_join : List String → String
  | [] => ""
  | x :: xs => "," ++ x ++ tail_join xs

/-- Decidable equality for Except outcomes, so that concrete runs of
set_max_java_mem can be checked by evaluation. -/
instance exceptDecEq {α β : Type} [DecidableEq α] [DecidableEq β] : DecidableEq (Except α β)
  | Except.error a, Except.error b =>
    if h : a = b then Decidable.isTrue (by rw [h])
    else Decidable.isFalse (fun hc => by cases hc; exact h rfl)
  | Except.error _, Except.ok _ => Decidable.isFalse (fun hc => by cases hc)
  | Except.ok _, Except.error _ => Decidable.isFalse (fun hc => by cases hc)
  | Except.ok a, Except.ok b =>
    if h : a = b then Decidable.isTrue (by rw [h])
    else Decidable.isFalse (fun hc => by cases hc; exact h rfl)

/-- C1: the claim asserts that the image name and tag given on the command
line (-i and -t) survive the run.sh.conf merge.  They do not: process_line
assigns cfg->image_name and cfg->image_tag directly, without
odk_set_image_name/ODK_NO_OVERWRITE, so the file values replace the
command-line values. -/
theorem c1_runconf_overwrites_cli_image :
    ((load_run_conf env_trivial
        (FileInput.content ["ODK_IMAGE=file/img", "ODK_TAG=file-tag"] false)
        (odk_set_image_tag (odk_set_image_name odk_init_config ⟨false, "cli/img"⟩ 0)
          ⟨false, "cli-tag"⟩ 0)).2.image_name.val = "file/img"
     ∧ (load_run_conf env_trivial
        (FileInput.content ["ODK_IMAGE=file/img", "ODK_TAG=file-tag"] false)
        (odk_set_image_tag (odk_set_image_name odk_init_config ⟨false, "cli/img"⟩ 0)
          ⟨false, "cli-tag"⟩ 0)).2.image_tag.val = "file-tag") := by
  decide

/-- C2: the claim (and the doc comment of load_run_conf) promises 0 for "no
file", 1 for "read cleanly" and a count ≥ 2 for errors; the code returns 0
both when there is no file and when the file parses cleanly, and returns 1
for a single configuration error. -/
theorem c2_load_result_contradicts_doc :
    (load_run_conf env_trivial FileInput.noFile odk_init_config).1 = 0
    ∧ (load_run_conf env_trivial (FileInput.content ["ODK_IMAGE=foo/bar"] false)
        odk_init_config).1 = 0
    ∧ (load_run_conf env_trivial (FileInput.content ["BOGUS=x"] false)
        odk_init_config).1 = 1
    ∧ (load_run_conf env_trivial FileInput.unreadable odk_init_config).1 = -1 := by
  decide

/-- C5: the native backend's allocation count has no slot for the NULL
terminator: with the debug flag set and an empty user command it allocates
3 slots but writes 4 (the final `argv[i] = NULL` lands one past the end).
The docker backend's count is not exact either (it allocates 9 fixed slots
but writes only 8 when no binding/env var/debug token is present). -/
theorem c5_native_argv_overflow :
    native_argv_alloc true false [] = 3
    ∧ native_argv_written true false "" "" [] = 4
    ∧ docker_argv_alloc odk_init_config [] = 9
    ∧ docker_argv_written odk_init_config [] = 8 := by
  decide

/-- C6 counterexample: when the command cannot be executed (execvp fails),
spawn_process does not return the -1 sentinel: the child exits with
EXIT_FAILURE and the parent reports that ordinary exit code 1. -/
theorem c6_exec_failure_returns_one :
    spawn_process SpawnScenario.execFailed = 1 := by
  decide

/-- C6 (amended): spawn_process returns the child's own exit code on a
normal exit, and returns -1 exactly when fork fails, waitpid fails, or the
child was killed by a signal; a child that could not exec its command
counts as a normal exit with code EXIT_FAILURE. -/
theorem c6_spawn_status_characterization :
    (∀ c : Nat, spawn_process (SpawnScenario.childTerminated (WaitStatus.exited c)) = (c : Int))
    ∧ (∀ s : SpawnScenario, spawn_process s = -1 ↔
        (s = SpawnScenario.forkFailed ∨ s = SpawnScenario.waitFailed ∨
          ∃ sig, s = SpawnScenario.childTerminated (WaitStatus.signaled sig))) := by
  constructor
  · intro c
    rfl
  · intro s
    cases s with
    | forkFailed => simp [spawn_process, observed_status]
    | waitFailed => simp [spawn_process, observed_status]
    | execFailed => simp [spawn_process, observed_status, EXIT_FAILURE]
    | childTerminated st =>
      cases st with
      | exited c =>
        simp only [spawn_process, observed_status]
        constructor
        · intro h
          exact absurd h (by omega)
        · rintro (h | h | ⟨sig, h⟩) <;> simp_all
      | signaled sig =>
        simp [spawn_process, observed_status]

/-- C3: with exactly one binding, exactly one valued environment variable
and the debug flag clear, the docker backend produces exactly the vector
[docker, run, --rm, -ti, -w, workdir, -v, host:container, -e, NAME=VALUE,
image:tag, user command...]; the terminating NULL is the end of the
list. -/
theorem c3_docker_argv (cfg : Config) (command : List String) (host cont n v : String)
    (hb : cfg.bindings = [⟨host, cont⟩])
    (he : cfg.env_vars = [⟨n, some v⟩])
    (hd : cfg.flags &&& ODK_FLAG_TIMEDEBUG = 0) :
    docker_run_argv cfg command =
      ["docker", "run", "--rm", "-ti", "-w", cfg.work_directory,
       "-v", host ++ ":" ++ cont, "-e", n ++ "=" ++ v,
       cfg.image_name.val ++ ":" ++ cfg.image_tag.val] ++ command := by
  simp [docker_run_argv, hb, he, hd]

/-- C3 witness: the docker vector for a binding /host -> /container, an
env var FOO=bar and the command [make, test] on the default image. -/
theorem c3_docker_argv_witness :
    docker_run_argv
      { odk_init_config with
        bindings := [⟨"/host", "/container"⟩]
        env_vars := [⟨"FOO", some "bar"⟩] }
      ["make", "test"] =
      ["docker", "run", "--rm", "-ti", "-w", "/work", "-v", "/host:/container",
       "-e", "FOO=bar", "obolibrary/odkfull:latest", "make", "test"] := by
  have h := c3_docker_argv
    { odk_init_config with
      bindings := [⟨"/host", "/container"⟩]
      env_vars := [⟨"FOO", some "bar"⟩] }
    ["make", "test"] "/host" "/container" "FOO" "bar" rfl rfl (by decide)
  simpa using h

/-- add_var on a list that does not contain the name appends the new entry
at the end. -/
theorem add_var_fresh (vars : List Var) (name : String) (value : Option String) (flags : Nat)
    (h : ∀ v ∈ vars, v.name ≠ name) :
    add_var vars name value flags = vars ++ [⟨name, value⟩] := by
  induction vars with
  | nil => simp [add_var]
  | cons v rest ih =>
    have hv : v.name ≠ name := h v (List.mem_cons_self _ _)
    simp only [add_var, if_neg hv, List.cons_append]
    rw [ih (fun w hw => h w (List.mem_cons_of_mem _ hw))]

/-- add_var on a list whose unique entry with the name sits at the end:
the entry's value is replaced unless ODK_NO_OVERWRITE is set, and nothing
is appended. -/
theorem add_var_hit_last (vars : List Var) (name : String) (v1 value : Option String)
    (flags : Nat) (h : ∀ v ∈ vars, v.name ≠ name) :
    add_var (vars ++ [⟨name, v1⟩]) name value flags
      = vars ++ [⟨name, if flags &&& ODK_NO_OVERWRITE = 0 then value else v1⟩] := by
  induction vars with
  | nil =>
    by_cases hf : flags &&& ODK_NO_OVERWRITE = 0 <;> simp [add_var, hf]
  | cons v rest ih =>
    have hv : v.name ≠ name := h v (List.mem_cons_self _ _)
    simp only [List.cons_append, add_var, if_neg hv, List.append_eq]
    rw [ih (fun w hw => h w (List.mem_cons_of_mem _ hw))]

/-- C9: adding the same environment variable twice to a configuration that
does not yet contain it leaves exactly one entry under that name, holding
the second value under the overwrite policy (flag bit clear) and the first
value under ODK_NO_OVERWRITE. -/
theorem c9_add_env_var_twice (cfg : Config) (name : String) (v1 v2 : Option String)
    (f1 f2 : Nat) (h : ∀ v ∈ cfg.env_vars, v.name ≠ name) :
    (odk_add_env_var (odk_add_env_var cfg name v1 f1) name v2 f2).env_vars
        = cfg.env_vars ++ [⟨name, if f2 &&& ODK_NO_OVERWRITE = 0 then v2 else v1⟩]
    ∧ ((odk_add_env_var (odk_add_env_var cfg name v1 f1) name v2 f2).env_vars.filter
        (fun v => v.name = name))
        = [⟨name, if f2 &&& ODK_NO_OVERWRITE = 0 then v2 else v1⟩] := by
  have e1 : (odk_add_env_var (odk_add_env_var cfg name v1 f1) name v2 f2).env_vars
      = cfg.env_vars ++ [⟨name, if f2 &&& ODK_NO_OVERWRITE = 0 then v2 else v1⟩] := by
    simp only [odk_add_env_var]
    rw [add_var_fresh _ _ _ _ h, add_var_hit_last _ _ _ _ _ h]
  refine ⟨e1, ?_⟩
  rw [e1, List.filter_append]
  have : cfg.env_vars.filter (fun v => v.name = name) = [] := by
    rw [List.filter_eq_nil_iff]
    intro v hv
    simpa using h v hv
  simp [this]

/-- C9 witness: FOO added as bar then baz; ODK_NO_OVERWRITE keeps bar, the
overwrite policy keeps baz, one entry either way. -/
theorem c9_add_env_var_twice_witness :
    (odk_add_env_var (odk_add_env_var odk_init_config "FOO" (some "bar") 0) "FOO"
        (some "baz") ODK_NO_OVERWRITE).env_vars = [⟨"FOO", some "bar"⟩]
    ∧ (odk_add_env_var (odk_add_env_var odk_init_config "FOO" (some "bar") 0) "FOO"
        (some "baz") 0).env_vars = [⟨"FOO", some "baz"⟩] := by
  constructor
  · rw [(c9_add_env_var_twice odk_init_config "FOO" (some "bar") (some "baz") 0
      ODK_NO_OVERWRITE (by simp [odk_init_config])).1]
    decide
  · rw [(c9_add_env_var_twice odk_init_config "FOO" (some "bar") (some "baz") 0 0
      (by simp [odk_init_config])).1]
    decide

/-- Effect of a single configuration operation on bit 13
(ODK_FLAG_JAVAMEMSET) of the flag word: only odk_add_java_opt with a
"-Xmx"-option raises it, and nothing lowers it. -/
theorem apply_op_testBit (env : Env) (op : Op) (cfg : Config) :
    ((apply_op env op cfg).flags).testBit 13 = (cfg.flags.testBit 13 || is_xmx_opt op) := by
  cases op with
  | setImageName img fgs =>
    simp only [apply_op, odk_set_image_name, is_xmx_opt, Bool.or_false]
    split <;> rfl
  | setImageTag tag fgs =>
    simp only [apply_op, odk_set_image_tag, is_xmx_opt, Bool.or_false]
    split <;> rfl
  | setOakCache dir fgs =>
    simp only [apply_op, odk_set_oak_cache_directory, is_xmx_opt, Bool.or_false]
    split <;> rfl
  | addBinding src dst fgs =>
    simp only [apply_op, odk_add_binding, is_xmx_opt, Bool.or_false]
    cases env.canon src <;> rfl
  | addEnvVar name value fgs =>
    simp only [apply_op, odk_add_env_var, is_xmx_opt, Bool.or_false]
  | addJavaOpt option fgs =>
    simp only [apply_op, odk_add_java_opt, is_xmx_opt, String.toList]
    have hb : ODK_FLAG_JAVAMEMSET.testBit 13 = true := by decide
    by_cases h : List.take 4 option.data = ['-', 'X', 'm', 'x']
    · simp [if_pos h, Nat.testBit_lor, h, hb]
    · simp [h]
  | addJavaProperty name value fgs =>
    simp only [apply_op, odk_add_java_property, is_xmx_opt, Bool.or_false]
  | orFlag c =>
    have hc : (flag_const_val c).testBit 13 = false := by
      cases c <;> decide
    simp [apply_op, is_xmx_opt, Nat.testBit_lor, hc]
  | makeJavaArgs to_env =>
    simp only [apply_op, odk_make_java_args, odk_add_env_var, is_xmx_opt, Bool.or_false]
    split <;> rfl

/-- Bit 13 of the flag word after a whole operation sequence: raised if
and only if it was raised before or the sequence contains an
odk_add_java_opt call on a "-Xmx"-option. -/
theorem apply_ops_testBit (ops : List Op) (env : Env) (cfg : Config) :
    ((apply_ops env ops cfg).flags).testBit 13 = (cfg.flags.testBit 13 || ops.any is_xmx_opt) := by
  induction ops generalizing cfg with
  | nil => simp [apply_ops]
  | cons op rest ih =>
    rw [show apply_ops env (op :: rest) cfg = apply_ops env rest (apply_op env op cfg) from rfl,
      ih (apply_op env op cfg), apply_op_testBit, List.any_cons, Bool.or_assoc]

/-- C10: starting from odk_init_config, after any sequence of
configuration operations the ODK_FLAG_JAVAMEMSET bit is set iff some
odk_add_java_opt call supplied an option starting with "-Xmx";
odk_add_java_property never raises it and no operation clears it (the
right-hand side is monotone along the sequence). -/
theorem c10_javamemset_invariant (env : Env) (ops : List Op) :
    ((apply_ops env ops odk_init_config).flags &&& ODK_FLAG_JAVAMEMSET ≠ 0)
      ↔ ∃ op ∈ ops, is_xmx_opt op = true := by
  have h13 : ODK_FLAG_JAVAMEMSET = 2 ^ 13 := by norm_num [ODK_FLAG_JAVAMEMSET]
  rw [h13, Nat.and_two_pow, ← h13, apply_ops_testBit]
  have h0 : odk_init_config.flags.testBit 13 = false := by decide
  rw [h0, Bool.false_or]
  rw [← List.any_eq_true]
  cases ops.any is_xmx_opt <;> simp [ODK_FLAG_JAVAMEMSET]

/-- C8 counterexample: when the first environment entry has no value and a
later one does, the singularity --env argument starts with a stray comma
(the separator condition is j > 0, not "something was already emitted"). -/
theorem c8_leading_comma_counterexample :
    sing_env_arg [⟨"A", none⟩, ⟨"B", some "b"⟩] = ",B=b"
    ∧ singularity_run_argv
        { odk_init_config with env_vars := [⟨"A", none⟩, ⟨"B", some "b"⟩] } [] =
      ["singularity", "exec", "--cleanenv", "--env", ",B=b", "-W", "/work",
       "docker://obolibrary/odkfull:latest"] := by
  decide

/-- The singularity env loop from any index j ≥ 1 appends "," ++ NAME=VALUE
for every valued entry. -/
theorem sing_env_go_tail (vars : List Var) (j : Nat) (s : String) :
    sing_env_go (j + 1) vars s = s ++ tail_join (vars.filterMap render_env_var) := by
  induction vars generalizing j s with
  | nil => simp [sing_env_go, tail_join]
  | cons v rest ih =>
    cases hv : v.value with
    | none =>
      simp only [sing_env_go, hv]
      rw [ih (j + 1)]
      simp [render_env_var, hv]
    | some x =>
      simp only [sing_env_go, hv, Nat.add_pos_right, if_pos]
      rw [ih (j + 1)]
      simp only [List.filterMap_cons, render_env_var, hv, Option.map_some]
      simp [tail_join, String.append_assoc]

/-- The singularity bind loop from any index j ≥ 1 appends
"," ++ host:container for every binding. -/
theorem sing_bind_go_tail (bs : List Binding) (j : Nat) (s : String) :
    sing_bind_go (j + 1) bs s = s ++ tail_join (bs.map render_binding) := by
  induction bs generalizing j s with
  | nil => simp [sing_bind_go, tail_join]
  | cons b rest ih =>
    simp only [sing_bind_go, Nat.add_pos_right, if_pos]
    rw [ih (j + 1)]
    simp only [List.map_cons]
    simp [tail_join, render_binding, String.append_assoc]

/-- comma_join is head followed by ("," ++ item) for each later item. -/
theorem comma_join_cons (x : String) (xs : List String) :
    comma_join (x :: xs) = x ++ tail_join xs := by
  induction xs generalizing x with
  | nil => simp [comma_join, tail_join]
  | cons y ys ih =>
    rw [show comma_join (x :: y :: ys) = x ++ "," ++ comma_join (y :: ys) from rfl,
      ih y, tail_join, String.append_assoc, String.append_assoc]

/-- The combined --bind argument is always the proper comma-join of the
rendered bindings (every binding is rendered, so the j > 0 separator
condition is correct there). -/
theorem sing_bind_arg_eq (bs : List Binding) :
    sing_bind_arg bs = comma_join (bs.map render_binding) := by
  cases bs with
  | nil => rfl
  | cons b rest =>
    rw [show sing_bind_arg (b :: rest)
        = sing_bind_go 1 rest ("" ++ b.host_directory ++ ":" ++ b.container_directory) from rfl,
      sing_bind_go_tail rest 0, List.map_cons, comma_join_cons]
    simp [render_binding]

/-- C8 (amended): provided the first env_vars entry has a value, the
singularity backend emits a single --env flag whose argument is the
comma-join of NAME=VALUE for exactly the valued entries, in order, with no
leading, trailing or doubled comma (comma_join); when the first entry is
valueless the argument instead carries a leading comma, as the
counterexample shows. -/
theorem c8_singularity_env_join (cfg : Config) (command : List String) (v : Var)
    (rest : List Var) (x : String)
    (he : cfg.env_vars = v :: rest) (hv : v.value = some x) :
    singularity_run_argv cfg command =
      ["singularity", "exec", "--cleanenv",
       "--env", comma_join (cfg.env_vars.filterMap render_env_var)]
      ++ (if cfg.bindings.length > 0 then
            ["--bind", comma_join (cfg.bindings.map render_binding)] else [])
      ++ ["-W", cfg.work_directory,
          "docker://" ++ (if cfg.image_name.val.toList.contains '/' then "" else "obolibrary/")
            ++ cfg.image_name.val ++ ":" ++ cfg.image_tag.val]
      ++ (if cfg.flags &&& ODK_FLAG_TIMEDEBUG ≠ 0 then time_tokens else [])
      ++ (if cfg.flags &&& ODK_FLAG_SEEDMODE ≠ 0 then ["/tools/odk.py", "seed"] else [])
      ++ command := by
  have henv : sing_env_arg cfg.env_vars = comma_join (cfg.env_vars.filterMap render_env_var) := by
    rw [he]
    have hfm : List.filterMap render_env_var (v :: rest)
        = (v.name ++ "=" ++ x) :: List.filterMap render_env_var rest := by
      simp [render_env_var, hv]
    rw [show sing_env_arg (v :: rest) = sing_env_go 0 (v :: rest) "" from rfl, hfm,
      comma_join_cons]
    simp only [sing_env_go, hv]
    rw [sing_env_go_tail rest 0]
    simp
  unfold singularity_run_argv
  rw [henv, sing_bind_arg_eq]
  simp [he]

/-- C8 witness: with env vars FOO=bar, BAR (unset), BAZ=z — the first one
valued — and one binding, the --env argument is the clean comma-join
FOO=bar,BAZ=z of exactly the valued entries. -/
theorem c8_singularity_env_join_witness :
    singularity_run_argv
      { odk_init_config with
        env_vars := [⟨"FOO", some "bar"⟩, ⟨"BAR", none⟩, ⟨"BAZ", some "z"⟩]
        bindings := [⟨"/h", "/c"⟩] }
      ["sh"] =
      ["singularity", "exec", "--cleanenv", "--env", "FOO=bar,BAZ=z", "--bind", "/h:/c",
       "-W", "/work", "docker://obolibrary/odkfull:latest", "sh"] := by
  rw [c8_singularity_env_join
    { odk_init_config with
      env_vars := [⟨"FOO", some "bar"⟩, ⟨"BAR", none⟩, ⟨"BAZ", some "z"⟩]
      bindings := [⟨"/h", "/c"⟩] }
    ["sh"] ⟨"FOO", some "bar"⟩ [⟨"BAR", none⟩, ⟨"BAZ", some "z"⟩] "bar" rfl rfl]
  decide

/-- kgo computes, for any mantissa below 2^53 * 2^fuel, the least k with
m < 2^(53+k): upper and lower bracketing of the chosen exponent shift. -/
theorem kgo_spec (f : Nat) : ∀ m : Nat, m < 2 ^ 53 * 2 ^ f →
    m < 2 ^ (53 + kgo f m) ∧ (0 < kgo f m → 2 ^ (52 + kgo f m) ≤ m) := by
  induction f with
  | zero =>
    intro m hm
    simp only [kgo]
    refine ⟨by simpa using hm, fun hc => absurd hc (by simp)⟩
  | succ f ih =>
    intro m hm
    by_cases h : m < 2 ^ 53
    · simp only [kgo, if_pos h]
      exact ⟨by simpa using h, fun hc => absurd hc (by simp)⟩
    · have hm2 : m / 2 < 2 ^ 53 * 2 ^ f := by
        rw [Nat.div_lt_iff_lt_mul Nat.two_pos]
        calc m < 2 ^ 53 * 2 ^ (f + 1) := hm
        _ = 2 ^ 53 * 2 ^ f * 2 := by ring
      obtain ⟨ih1, ih2⟩ := ih (m / 2) hm2
      simp only [kgo, if_neg h]
      constructor
      · have hlt : m < 2 ^ (53 + kgo f (m / 2)) * 2 :=
          (Nat.div_lt_iff_lt_mul Nat.two_pos).1 ih1
        calc m < 2 ^ (53 + kgo f (m / 2)) * 2 := hlt
        _ = 2 ^ (53 + (kgo f (m / 2) + 1)) := by
              rw [show 53 + (kgo f (m / 2) + 1) = (53 + kgo f (m / 2)) + 1 from by omega,
                pow_succ]
      · intro _
        rcases Nat.eq_zero_or_pos (kgo f (m / 2)) with h0 | hpos
        · rw [h0]
          simpa using Nat.le_of_not_lt h
        · have h52 : 2 ^ (52 + kgo f (m / 2)) ≤ m / 2 := ih2 hpos
          have hmul : 2 ^ (52 + kgo f (m / 2)) * 2 ≤ m / 2 * 2 :=
            Nat.mul_le_mul_right 2 h52
          calc 2 ^ (52 + (kgo f (m / 2) + 1)) = 2 ^ (52 + kgo f (m / 2)) * 2 := by
                rw [show 52 + (kgo f (m / 2) + 1) = (52 + kgo f (m / 2)) + 1 from by omega,
                  pow_succ]
          _ ≤ m / 2 * 2 := hmul
          _ ≤ m := Nat.div_mul_le_self m 2

/-- Round-to-nearest never rounds below the truncated quotient. -/
theorem rheN_ge (m k : Nat) : m / 2 ^ k ≤ rheN m k := by
  unfold rheN
  by_cases hk : k = 0
  · simp [hk]
  · simp only [if_neg hk]
    split
    · exact le_rfl
    · split
      · exact Nat.le_succ _
      · split
        · exact le_rfl
        · exact Nat.le_succ _

/-- Half-ulp error bound of round-to-nearest-even: the rounded value,
scaled back, exceeds the argument by at most half the step. -/
theorem rheN_mul_le (m k : Nat) : 2 * (rheN m k * 2 ^ k) ≤ 2 * m + 2 ^ k := by
  unfold rheN
  by_cases hk : k = 0
  · subst hk
    simp
  · simp only [if_neg hk]
    have hp0 : 0 < 2 ^ k := Nat.pos_pow_of_pos k (by norm_num)
    set p := 2 ^ k with hp
    set q := m / p with hq
    set r := m % p with hr
    have hdm : q * p + r = m := Nat.div_add_mod' m p
    have hml : r < p := Nat.mod_lt m hp0
    split
    · rename_i hc
      omega
    · split
      · rename_i hc1 hc2
        rw [Nat.add_mul, one_mul]
        omega
      · split
        · rename_i hc1 hc2 hc3
          omega
        · rename_i hc1 hc2 hc3
          rw [Nat.add_mul, one_mul]
          omega

/-- Characterization of natural division by bracketing. -/
theorem div_eq_of_between (a b k : Nat) (hb : 0 < b) (h1 : k * b ≤ a)
    (h2 : a < (k + 1) * b) : a / b = k :=
  Nat.le_antisymm (Nat.le_of_lt_succ ((Nat.div_lt_iff_lt_mul hb).2 h2))
    ((Nat.le_div_iff_mul_le hb).2 h1)

/-- For total_memory below 2^50 (one petabyte), the double-precision
expression (total_memory * 0.9) / 2^30, truncated, agrees exactly with
floor(9 * total_memory / 10 / 2^30): the accumulated rounding error
(half-ulp of the product plus the excess of the double literal 0.9 over
9/10) stays below the 1/10 granularity of 9*tm/10.  Beyond that range the
two can differ, as the C4 counterexample shows. -/
theorem java_mem_default_exact (tm : Nat) (h1 : 0 < tm) (h2 : tm < 2 ^ 50) :
    java_mem_default tm = 9 * tm / (10 * 2 ^ 30) := by
  have htm53 : tm < 2 ^ 53 := lt_trans h2 (by norm_num)
  have hk0 : kfor tm = 0 := by
    unfold kfor
    rw [show (60 : Nat) = 59 + 1 from rfl]
    simp only [kgo]
    rw [if_pos htm53]
  have hr1 : round53 ⟨tm, 0⟩ = ⟨tm, 0⟩ := by
    simp [round53, hk0, rheN]
  have hd09 : round_rat 9 10 = ⟨8106479329266893, -53⟩ := by decide
  unfold java_mem_default
  rw [hr1, hd09]
  simp only [dy_mul]
  set M : Nat := tm * 8106479329266893 with hM
  have hM103 : M < 2 ^ 103 := by
    calc M < 2 ^ 50 * 2 ^ 53 := Nat.mul_lt_mul'' h2 (by norm_num)
    _ = 2 ^ 103 := by norm_num
  have hfuel : M < 2 ^ 53 * 2 ^ 60 := lt_trans hM103 (by norm_num)
  have hkk : kfor M = kgo 60 M := rfl
  obtain ⟨hku, hkl⟩ := kgo_spec 60 M hfuel
  rw [← hkk] at hku hkl
  set k : Nat := kfor M with hk
  have hk50 : k ≤ 50 := by
    by_contra hgt
    push_neg at hgt
    have hpos : 0 < k := by omega
    have hx : (2 : Nat) ^ 103 ≤ 2 ^ (52 + k) := Nat.pow_le_pow_right (by norm_num) (by omega)
    exact absurd (lt_of_le_of_lt (le_trans hx (hkl hpos)) hM103) (lt_irrefl _)
  simp only [round53, ← hk, dy_shift, dy_floor]
  set R : Nat := rheN M k with hR
  have he : (0 + -53 + (k : Int) + -30) = (k : Int) - 83 := by ring
  rw [he]
  rw [if_neg (by omega : ¬ (0 : Int) ≤ (k : Int) - 83)]
  rw [show (-((k : Int) - 83)).toNat = 83 - k from by omega]
  set K : Nat := 9 * tm / (10 * 2 ^ 30) with hK
  have hdm : 10 * 2 ^ 30 * K + 9 * tm % (10 * 2 ^ 30) = 9 * tm := Nat.div_add_mod _ _
  set r10 : Nat := 9 * tm % (10 * 2 ^ 30) with hr10
  have hr10lt : r10 < 10 * 2 ^ 30 := Nat.mod_lt _ (by norm_num)
  have h10M : 10 * M = 81064793292668930 * tm := by rw [hM]; ring
  have hlow : K * 2 ^ 83 ≤ M := by
    have h9 : 10 * 2 ^ 30 * K ≤ 9 * tm := by omega
    have h53 : 10 * 2 ^ 30 * K * 2 ^ 53 ≤ 9 * tm * 2 ^ 53 := Nat.mul_le_mul_right _ h9
    have hID : 10 * 2 ^ 30 * K * 2 ^ 53 = 10 * (K * 2 ^ 83) := by
      rw [show (2 : Nat) ^ 83 = 2 ^ 30 * 2 ^ 53 from by norm_num]
      ring
    have h2M : 9 * tm * 2 ^ 53 ≤ 10 * M := by
      have hc : 9 * tm * 2 ^ 53 = 81064793292668928 * tm := by ring
      omega
    have : 10 * (K * 2 ^ 83) ≤ 10 * M := by
      calc 10 * (K * 2 ^ 83) = 10 * 2 ^ 30 * K * 2 ^ 53 := hID.symm
      _ ≤ 9 * tm * 2 ^ 53 := h53
      _ ≤ 10 * M := h2M
    exact Nat.le_of_mul_le_mul_left this (by norm_num)
  have hup2 : 2 * (R * 2 ^ k) ≤ 2 * M + 2 ^ k := by rw [hR]; exact rheN_mul_le M k
  have hpk : (2 : Nat) ^ k ≤ 1125899906842624 := by
    calc (2 : Nat) ^ k ≤ 2 ^ 50 := Nat.pow_le_pow_right (by norm_num) hk50
    _ = 1125899906842624 := by norm_num
  have hupp : R * 2 ^ k < (K + 1) * 2 ^ 83 := by
    have hg : (K + 1) * 2 ^ 83 = 9671406556917033397649408 * K + 9671406556917033397649408 := by
      rw [show (2 : Nat) ^ 83 = 9671406556917033397649408 from by norm_num]
      ring
    rw [hg]
    omega
  have h83k : (2 : Nat) ^ (83 - k) * 2 ^ k = 2 ^ 83 := by
    rw [← pow_add]
    congr 1
    omega
  apply div_eq_of_between
  · exact Nat.pos_pow_of_pos _ (by norm_num)
  · have hq : K * 2 ^ (83 - k) * 2 ^ k ≤ M := by
      rw [mul_assoc, h83k]
      exact hlow
    have hKd : K * 2 ^ (83 - k) ≤ M / 2 ^ k :=
      (Nat.le_div_iff_mul_le (Nat.pos_pow_of_pos _ (by norm_num))).2 hq
    exact le_trans hKd (by rw [hR]; exact rheN_ge M k)
  · have hx : R * 2 ^ k < (K + 1) * 2 ^ (83 - k) * 2 ^ k := by
      rw [mul_assoc, h83k]
      exact hupp
    exact Nat.lt_of_mul_lt_mul_right hx

/-- Round-to-nearest is exact on multiples of the step. -/
theorem rheN_exact (m k : Nat) (h : m % 2 ^ k = 0) : rheN m k = m / 2 ^ k := by
  unfold rheN
  by_cases hk : k = 0
  · simp [hk]
  · have hp0 : 0 < 2 ^ k := Nat.pos_pow_of_pos k (by norm_num)
    simp only [if_neg hk, h]
    rw [if_pos (by omega : 2 * 0 < 2 ^ k)]

/-- For total_memory below 2^53 and the percentage 50, the double-precision
expression (total_memory * (50 / 100.0)) / 2^30, truncated, agrees exactly
with floor(total_memory * 50 / 100 / 2^30): 50/100.0 is exactly 0.5 and
halving a 53-bit integer is exact. -/
theorem java_mem_percent_50_exact (tm : Nat) (h2 : tm < 2 ^ 53) :
    java_mem_percent tm 50 = tm * 50 / 100 / 2 ^ 30 := by
  have hk0 : kfor tm = 0 := by
    unfold kfor
    rw [show (60 : Nat) = 59 + 1 from rfl]
    simp only [kgo]
    rw [if_pos h2]
  have hr1 : round53 ⟨tm, 0⟩ = ⟨tm, 0⟩ := by
    simp [round53, hk0, rheN]
  have hhalf : dy_div_nat (round53 ⟨50, 0⟩) 100 = ⟨4503599627370496, -53⟩ := by decide
  unfold java_mem_percent
  rw [hr1, hhalf]
  simp only [dy_mul]
  set M : Nat := tm * 4503599627370496 with hM
  have hM105 : M < 2 ^ 105 := by
    calc M < 2 ^ 53 * 2 ^ 52 := by
          rw [hM, show (4503599627370496 : Nat) = 2 ^ 52 from by norm_num]
          exact (Nat.mul_lt_mul_right (by norm_num)).2 h2
    _ ≤ 2 ^ 105 := by norm_num
  have hfuel : M < 2 ^ 53 * 2 ^ 60 := lt_of_lt_of_le hM105 (by norm_num)
  have hkk : kfor M = kgo 60 M := rfl
  obtain ⟨hku, hkl⟩ := kgo_spec 60 M hfuel
  rw [← hkk] at hku hkl
  set k : Nat := kfor M with hk
  have hk52 : k ≤ 52 := by
    by_contra hgt
    push_neg at hgt
    have hpos : 0 < k := by omega
    have hx : (2 : Nat) ^ 105 ≤ 2 ^ (52 + k) := Nat.pow_le_pow_right (by norm_num) (by omega)
    exact absurd (lt_of_le_of_lt (le_trans hx (hkl hpos)) hM105) (lt_irrefl _)
  have hdvd : M % 2 ^ k = 0 := by
    have hdv : 2 ^ k ∣ M := by
      rw [hM, show (4503599627370496 : Nat) = 2 ^ 52 from by norm_num]
      exact Dvd.dvd.mul_left (pow_dvd_pow 2 hk52) tm
    exact Nat.mod_eq_zero_of_dvd hdv
  simp only [round53, ← hk, dy_shift, dy_floor]
  rw [rheN_exact M k hdvd]
  have he : (0 + -53 + (k : Int) + -30) = (k : Int) - 83 := by ring
  rw [he, if_neg (by omega : ¬ (0 : Int) ≤ (k : Int) - 83),
    show (-((k : Int) - 83)).toNat = 83 - k from by omega]
  rw [Nat.div_div_eq_div_mul]
  rw [show (2 : Nat) ^ k * 2 ^ (83 - k) = 2 ^ 83 from by rw [← pow_add]; congr 1; omega]
  rw [hM, show (4503599627370496 : Nat) = 2 ^ 52 from by norm_num]
  rw [show (2 : Nat) ^ 83 = 2 ^ 52 * 2 ^ 31 from by norm_num]
  rw [Nat.mul_comm tm (2 ^ 52), Nat.mul_div_mul_left _ _ (by norm_num : 0 < 2 ^ 52)]
  rw [Nat.div_div_eq_div_mul]
  rw [show (100 : Nat) * 2 ^ 30 = 50 * 2 ^ 31 from by norm_num]
  rw [Nat.mul_comm tm 50, Nat.mul_div_mul_left _ _ (by norm_num : 0 < 50)]

/-- The final step of set_max_java_mem for a computed gigabyte amount N:
nothing happens for N = 0; otherwise -XmxNG is appended to java_opts (the
name being fresh) and ODK_FLAG_JAVAMEMSET is raised. -/
theorem add_mem_opt_G (cfg : Config) (N : Nat)
    (hfresh : ∀ v ∈ cfg.java_opts, v.name ≠ "-Xmx" ++ toString N ++ "G") :
    add_mem_opt cfg N 'G' =
      if 1 ≤ N then
        { cfg with
          java_opts := cfg.java_opts ++ [⟨"-Xmx" ++ toString N ++ "G", none⟩]
          flags := cfg.flags ||| ODK_FLAG_JAVAMEMSET }
      else cfg := by
  unfold add_mem_opt
  by_cases hN : 0 < N
  · rw [if_pos hN, if_pos (by omega : 1 ≤ N)]
    unfold odk_add_java_opt
    rw [show ('G' : Char).toString = "G" from rfl]
    have hc : ("-Xmx" ++ toString N ++ "G").toList.take 4 = ['-', 'X', 'm', 'x'] := by
      show List.take 4 ("-Xmx" ++ toString N ++ "G").data = _
      rw [String.data_append, String.data_append, List.append_assoc]
      rw [show ("-Xmx" : String).data = ['-', 'X', 'm', 'x'] from rfl]
      rfl
    rw [if_pos hc, add_var_fresh _ _ _ _ hfresh]
  · rw [if_neg hN, if_neg (by omega : ¬ 1 ≤ N)]

/-- C4 (amended): with no prior -Xmx setting, no --java-mem request, a
fresh option name and 0 < total_memory < 2^50, set_max_java_mem adds
exactly -XmxNG with N = floor(0.9 * total_memory / 2^30) when N ≥ 1 and
nothing otherwise.  The 2^50 bound is needed because the computation runs
in IEEE doubles; at e.g. total_memory = 1251007054770631 the code yields
-Xmx1048582G while the exact formula gives 1048581. -/
theorem c4_java_mem_default (cfg : Config) (tm : Nat) (h1 : 0 < tm) (h2 : tm < 2 ^ 50)
    (hf : cfg.flags &&& ODK_FLAG_JAVAMEMSET = 0)
    (hfresh : ∀ v ∈ cfg.java_opts, v.name ≠ "-Xmx" ++ toString (9 * tm / (10 * 2 ^ 30)) ++ "G") :
    set_max_java_mem cfg tm none =
      Except.ok (if 1 ≤ 9 * tm / (10 * 2 ^ 30) then
        { cfg with
          java_opts := cfg.java_opts
            ++ [⟨"-Xmx" ++ toString (9 * tm / (10 * 2 ^ 30)) ++ "G", none⟩]
          flags := cfg.flags ||| ODK_FLAG_JAVAMEMSET }
      else cfg) := by
  unfold set_max_java_mem
  rw [if_pos ⟨hf, h1⟩, java_mem_default_exact tm h1 h2, add_mem_opt_G cfg _ hfresh]

/-- C4 witness: 10 GiB of detected memory yields exactly -Xmx9G
(90% of 10 GiB, rounded down to whole GiB); 1 GiB rounds down to 0 and
nothing is added. -/
theorem c4_java_mem_default_witness :
    set_max_java_mem odk_init_config 10737418240 none =
      Except.ok { odk_init_config with
        java_opts := [⟨"-Xmx9G", none⟩]
        flags := ODK_FLAG_JAVAMEMSET }
    ∧ set_max_java_mem odk_init_config 1073741824 none = Except.ok odk_init_config := by
  constructor
  · rw [c4_java_mem_default odk_init_config 10737418240 (by norm_num) (by norm_num)
      (by decide) (by simp [odk_init_config])]
    decide
  · rw [c4_java_mem_default odk_init_config 1073741824 (by norm_num) (by norm_num)
      (by decide) (by simp [odk_init_config])]
    decide

/-- C4 counterexample: at total_memory = 1251007054770631 (about 1.1 PiB,
a value a 64-bit long can report) the double-precision computation rounds
tm * 0.9 up across a GiB boundary: the code adds -Xmx1048582G although
floor(0.9 * tm / 2^30) = 1048581, refuting the claimed exact formula. -/
theorem c4_floor_counterexample :
    set_max_java_mem odk_init_config 1251007054770631 none =
      Except.ok { odk_init_config with
        java_opts := [⟨"-Xmx1048582G", none⟩]
        flags := ODK_FLAG_JAVAMEMSET }
    ∧ 9 * 1251007054770631 / (10 * 2 ^ 30) = 1048581 := by
  constructor
  · decide
  · decide

/-- C7 (amended): --java-mem 50% with 0 < total_memory < 2^53 and a fresh
option name adds exactly -XmxNG with N = floor(total_memory * 50 / 100 /
2^30) when N ≥ 1 (so 8 GiB yields -Xmx4G) and nothing otherwise, and a
percentage request with total_memory = 0 terminates with the fatal
"Could not get memory information from backend" error before any command
runs.  For percentages whose double computation is inexact the claimed
formula can fail, as the 90% counterexample shows; 50/100.0 is exactly
representable, which is why the 50% case is exact for every 53-bit
total_memory. -/
theorem c7_percent_request :
    (∀ (cfg : Config) (tm : Nat), 0 < tm → tm < 2 ^ 53 →
      (∀ v ∈ cfg.java_opts, v.name ≠ "-Xmx" ++ toString (tm * 50 / 100 / 2 ^ 30) ++ "G") →
      set_max_java_mem cfg tm (some "50%") =
        Except.ok (if 1 ≤ tm * 50 / 100 / 2 ^ 30 then
          { cfg with
            java_opts := cfg.java_opts
              ++ [⟨"-Xmx" ++ toString (tm * 50 / 100 / 2 ^ 30) ++ "G", none⟩]
            flags := cfg.flags ||| ODK_FLAG_JAVAMEMSET }
        else cfg))
    ∧ ∀ cfg : Config,
        set_max_java_mem cfg 0 (some "50%") =
          Except.error "Could not get memory information from backend" := by
  have hs : sscanf_zu_c "50%" = some (50, '%') := by decide
  constructor
  · intro cfg tm h1 h2 hfresh
    simp only [set_max_java_mem, hs, if_true]
    rw [if_neg (by omega : ¬ tm = 0), java_mem_percent_50_exact tm h2,
      add_mem_opt_G cfg _ hfresh]
  · intro cfg
    simp only [set_max_java_mem, hs, if_true]

/-- C7 witness: --java-mem 50% with 8 GiB detected yields exactly -Xmx4G,
and with no detected memory it is the fatal configuration error. -/
theorem c7_percent_request_witness :
    set_max_java_mem odk_init_config 8589934592 (some "50%") =
      Except.ok { odk_init_config with
        java_opts := [⟨"-Xmx4G", none⟩]
        flags := ODK_FLAG_JAVAMEMSET }
    ∧ set_max_java_mem odk_init_config 0 (some "50%") =
      Except.error "Could not get memory information from backend" := by
  constructor
  · rw [c7_percent_request.1 odk_init_config 8589934592 (by norm_num) (by norm_num)
      (by simp [odk_init_config])]
    decide
  · exact c7_percent_request.2 odk_init_config

/-- C7 counterexample: --java-mem 90% with total_memory = 1251007054770631
makes the code add -Xmx1048582G although the claimed formula
floor(total_memory * 90 / 100 / 2^30) gives 1048581 (90/100.0 rounds up to
the double 0.9, and the product rounding crosses a GiB boundary). -/
theorem c7_percent_counterexample :
    set_max_java_mem odk_init_config 1251007054770631 (some "90%") =
      Except.ok { odk_init_config with
        java_opts := [⟨"-Xmx1048582G", none⟩]
        flags := ODK_FLAG_JAVAMEMSET }
    ∧ 1251007054770631 * 90 / 100 / 2 ^ 30 = 1048581 := by
  constructor
  · decide
  · decide
